import Mathlib

/-!
Consensus-coordinated message signer and Cassandra write batch.

A shallow embedding of

* `chain/messagesigner/messagesigner_consensus.go`
  (`MessageSignerConsensus.IsLeader`, `RedirectToLeader`, `SignMessage`, `GetSignedMessage`), and
* `blockstore/cassbs/cassandra_ds.go`
  (`cassandraBatch.Put`, `Delete`, `Commit`).

The collaborators the signer only calls (the embedded base signer `MsgSigner` and the raft
consensus engine) are records of outcome functions.  Every method of the embedding returns,
next to its Go result, the list of collaborator calls it made, in order, so that statements
such as "Commit is attempted once" or "the base signer is not invoked" are statements about
that list.  A Go run-time panic (nil dereference, failed type assertion) is the outcome
`Outcome.panicked`.
-/

namespace Lotus

/-! ## Data model -/

/-- Sender address (`address.Address`); only equality is used. -/
abbrev Address := Nat

/-- Idempotency key (`uuid.UUID`); only equality is used. -/
abbrev UUID := Nat

/-- Go `error` values. `external` stands for an error produced by a collaborator,
`msgNotAvailable` for the error built in `GetSignedMessage`
(`"Msg with Uuid %s not available"`). -/
inductive Error where
  | external (code : Nat)
  | msgNotAvailable (uuid : UUID)
  deriving DecidableEq, Repr

/-- Modelled from the spec: `types.Message` is declared outside the sources at hand; the spec
gives it "at least From and Nonce". -/
structure Message where
  From : Address
  Nonce : Nat
  deriving DecidableEq, Repr

/-- Modelled from the spec: `types.SignedMessage` is declared outside the sources at hand; a
message with its nonce populated, plus a signature. -/
structure SignedMessage where
  Message : Lotus.Message
  Signature : Nat
  deriving DecidableEq, Repr

/-- Modelled from the spec: `api.MessageSendSpec` is declared outside the sources at hand; the
signer reads only `spec.MsgUuid`. -/
structure MessageSendSpec where
  MsgUuid : UUID
  deriving DecidableEq, Repr

/-- Modelled from the spec: `consensus.ConsensusOp` (the spec's SigningOperation) is declared
outside the sources at hand. `SignMessage` builds it positionally, in the order
Nonce, IdempotencyKey, From, SignedMessage. -/
structure ConsensusOp where
  Nonce : Nat
  IdempotencyKey : UUID
  From : Address
  SignedMessage : Lotus.SignedMessage
  deriving DecidableEq, Repr

/-- A Go map as an association list; the first binding of a key is the live one. -/
abbrev GoMap (κ ν : Type) := List (κ × ν)

/-- Go map read `m[k]` in its two-result form: `some v` when present, `none` when absent. -/
def GoMap.get {κ ν : Type} [DecidableEq κ] (m : GoMap κ ν) (k : κ) : Option ν :=
  match m with
  | [] => none
  | (k1, v) :: rest => if k1 = k then some v else GoMap.get rest k

/-- Go map write `m[k] = v`. -/
def GoMap.set {κ ν : Type} [DecidableEq κ] (m : GoMap κ ν) (k : κ) (v : ν) : GoMap κ ν :=
  (k, v) :: m.filter (fun p => decide (p.1 ≠ k))

/-- Modelled from the spec: `consensus.RaftState` (the spec's ReplicatedState) is declared
outside the sources at hand. `GetSignedMessage` reads its `MsgUuids` map (the spec's
MessageByKey); `NonceMap` is the spec's NonceByAddress. -/
structure RaftState where
  NonceMap : GoMap Address Nat
  MsgUuids : GoMap UUID SignedMessage
  deriving DecidableEq, Repr

/-- The dynamic value behind the `consensus.State` interface returned by the engine's
`State`. `GetSignedMessage` asserts it to be a `*consensus.RaftState`. -/
inductive EngineState where
  | raftState (s : RaftState)
  | other (tag : Nat)
  deriving DecidableEq, Repr

/-- A Go `interface{}` value as far as the signer inspects it: either a
`*types.SignedMessage` (with the value the pointer currently refers to) or a value of some
other dynamic type. -/
inductive Iface where
  | signedMessagePtr (pointee : SignedMessage)
  | other (tag : Nat)
  deriving DecidableEq, Repr

/-- What the engine's redirect reports back: the value left in the result pointer after
decoding the leader's reply, the handled flag and the error. -/
structure RedirectReply where
  decoded : SignedMessage
  handled : Bool
  err : Option Error
  deriving DecidableEq, Repr

/-! ## Collaborators -/

/-- The embedded `MsgSigner` interface (the base signer). Its `SignMessage` takes the message,
the optional spec and the pre-commit callback and yields a signed message or an error. -/
structure MsgSigner where
  SignMessage : Message → Option MessageSendSpec → (SignedMessage → Option Error) →
    Except Error SignedMessage

/-- The raft consensus engine (`*consensus.Consensus`) as seen by the signer: the outcome of
each of the four methods the signer calls. -/
structure Consensus where
  IsLeader : Bool
  RedirectToLeader : String → Iface → SignedMessage → RedirectReply
  Commit : ConsensusOp → Option Error
  State : Except Error EngineState

/-- A call made by the signer to one of its collaborators. -/
inductive Call where
  | baseSign (msg : Message) (spec : Option MessageSendSpec)
  | isLeader
  | redirect (method : String) (arg : Iface)
  | commit (op : ConsensusOp)
  | state
  deriving DecidableEq, Repr

/-- How a Go call ends: it returns a value or it panics. -/
inductive Outcome (α : Type) where
  | returned (a : α)
  | panicked
  deriving DecidableEq, Repr

/-- The result of running a method: the collaborator calls made, in order, and the outcome. -/
structure Exec (α : Type) where
  calls : List Call
  out : Outcome α
  deriving DecidableEq, Repr

/-- Number of `Commit` calls in a call list. -/
def commitCount (cs : List Call) : Nat :=
  (cs.filter (fun c => match c with | .commit _ => true | _ => false)).length

/-- Number of base-signer calls in a call list. -/
def baseSignCount (cs : List Call) : Nat :=
  (cs.filter (fun c => match c with | .baseSign _ _ => true | _ => false)).length

/-- Number of redirect calls in a call list. -/
def redirectCount (cs : List Call) : Nat :=
  (cs.filter (fun c => match c with | .redirect _ _ => true | _ => false)).length

/-! ## The consensus-coordinated signer -/

/-- The struct `MessageSignerConsensus`: an embedded `MsgSigner` and the consensus engine. -/
structure MessageSignerConsensus where
  MsgSigner : Lotus.MsgSigner
  consensus : Lotus.Consensus

/-- The method `IsLeader`: returns the engine's answer. -/
def MessageSignerConsensus.IsLeader (ms : MessageSignerConsensus) : Exec Bool :=
  ⟨[.isLeader], .returned ms.consensus.IsLeader⟩

/-- The method `RedirectToLeader`: asserts `ret` to be a `*types.SignedMessage` (panicking otherwise,
before the engine is called), calls the engine's redirect with `method`, `arg` and that
pointer, and returns the engine's flag and error. The third component of the result is the
value the result pointer refers to after the call. -/
def MessageSignerConsensus.RedirectToLeader (ms : MessageSignerConsensus)
    (method : String) (arg : Iface) (ret : Iface) : Exec (Bool × Option Error × SignedMessage) :=
  match ret with
  | .other _ => ⟨[], .panicked⟩
  | .signedMessagePtr pointee =>
    let r := ms.consensus.RedirectToLeader method arg pointee
    match r.err with
    | some err => ⟨[.redirect method arg], .returned (r.handled, some err, r.decoded)⟩
    | none => ⟨[.redirect method arg], .returned (r.handled, none, r.decoded)⟩

/-- The method `SignMessage`: calls the base signer; on its error returns that error. Otherwise builds
the operation, which reads `spec.MsgUuid` and panics on a nil `spec`, submits it to the
engine's `Commit`, and returns the signed message when `Commit` returns no error. -/
def MessageSignerConsensus.SignMessage (ms : MessageSignerConsensus)
    (msg : Message) (spec : Option MessageSendSpec) (cb : SignedMessage → Option Error) :
    Exec (Option SignedMessage × Option Error) :=
  match ms.MsgSigner.SignMessage msg spec cb with
  | .error err => ⟨[.baseSign msg spec], .returned (none, some err)⟩
  | .ok signedMsg =>
    match spec with
    | none => ⟨[.baseSign msg spec], .panicked⟩
    | some sp =>
      let op : ConsensusOp :=
        ⟨signedMsg.Message.Nonce, sp.MsgUuid, signedMsg.Message.From, signedMsg⟩
      match ms.consensus.Commit op with
      | some err => ⟨[.baseSign msg spec, .commit op], .returned (none, some err)⟩
      | none => ⟨[.baseSign msg spec, .commit op], .returned (some signedMsg, none)⟩

/-- The method `GetSignedMessage`: reads the engine's state; on its error returns that error. Otherwise
asserts the state to be a `*consensus.RaftState` (panicking otherwise) and looks the key up
in `MsgUuids`. -/
def MessageSignerConsensus.GetSignedMessage (ms : MessageSignerConsensus) (uuid : UUID) :
    Exec (Option SignedMessage × Option Error) :=
  match ms.consensus.State with
  | .error err => ⟨[.state], .returned (none, some err)⟩
  | .ok (.other _) => ⟨[.state], .panicked⟩
  | .ok (.raftState cstate) =>
    match cstate.MsgUuids.get uuid with
    | none => ⟨[.state], .returned (none, some (.msgNotAvailable uuid))⟩
    | some msg => ⟨[.state], .returned (some msg, none)⟩

/-- The operations a call list submitted to `Commit`, in order. -/
def committedOps (cs : List Call) : List ConsensusOp :=
  cs.filterMap (fun c => match c with | .commit op => some op | _ => none)

/-- Modelled from the spec: the replicated signing state machine's `Apply` lives in the raft
consensus package, outside the sources at hand. Spec 4.2: applying an operation whose
IdempotencyKey already exists in MessageByKey is a no-op; otherwise the message is stored
under the key and `NonceByAddress[op.From] = max(current, op.Nonce)`. -/
def RaftState.Apply (st : RaftState) (op : ConsensusOp) : RaftState :=
  match st.MsgUuids.get op.IdempotencyKey with
  | some _ => st
  | none =>
    { NonceMap := st.NonceMap.set op.From (max ((st.NonceMap.get op.From).getD 0) op.Nonce)
      MsgUuids := st.MsgUuids.set op.IdempotencyKey op.SignedMessage }

/-- The operation `SignMessage` builds from the signed message and the spec. -/
def signingOp (s : SignedMessage) (sp : MessageSendSpec) : ConsensusOp :=
  ⟨s.Message.Nonce, sp.MsgUuid, s.Message.From, s⟩

/-- The same signer with the engine's leadership answer replaced. -/
def MessageSignerConsensus.withLeader (ms : MessageSignerConsensus) (b : Bool) :
    MessageSignerConsensus :=
  { ms with consensus := { ms.consensus with IsLeader := b } }

/-- The same signer with the engine's state answer replaced. -/
def MessageSignerConsensus.withState (ms : MessageSignerConsensus)
    (st : Except Error EngineState) : MessageSignerConsensus :=
  { ms with consensus := { ms.consensus with State := st } }

/-- The empty replicated state. -/
def RaftState.empty : RaftState := ⟨[], []⟩

/-! ## Concrete values used by the worked examples -/

/-- A message from address 7 whose nonce is still unset (zero). -/
def exMsg : Message := ⟨7, 0⟩

/-- The message signed with nonce 0. -/
def exSigned0 : SignedMessage := ⟨⟨7, 0⟩, 100⟩

/-- The message signed with nonce 1. -/
def exSigned1 : SignedMessage := ⟨⟨7, 1⟩, 101⟩

/-- A spec carrying idempotency key 42. -/
def exSpec : MessageSendSpec := ⟨42⟩

/-- A callback that accepts every signed message. -/
def exCb : SignedMessage → Option Error := fun _ => none

/-- A replicated state in which key 42 is already bound to `exSigned0`. -/
def exState : RaftState := RaftState.empty.Apply ⟨0, 42, 7, exSigned0⟩

/-- An engine that reports "not leader", accepts every commit and serves `exState`. -/
def exFollowerEngine : Consensus :=
  { IsLeader := false
    RedirectToLeader := fun _ _ _ => ⟨exSigned0, true, none⟩
    Commit := fun _ => none
    State := .ok (.raftState exState) }

/-- An engine that reports "leader" and rejects every commit with error 5. -/
def exFailingEngine : Consensus :=
  { IsLeader := true
    RedirectToLeader := fun _ _ _ => ⟨exSigned0, false, none⟩
    Commit := fun _ => some (.external 5)
    State := .ok (.raftState RaftState.empty) }

/-- An engine that reports "leader", accepts every commit and serves `exState`. -/
def exLeaderEngine : Consensus :=
  { IsLeader := true
    RedirectToLeader := fun _ _ _ => ⟨exSigned0, false, none⟩
    Commit := fun _ => none
    State := .ok (.raftState exState) }

/-- The method name under which a push is forwarded. -/
def exMethod : String := "MpoolPushMessage"

/-- A base signer that signs with the next nonce, 1. -/
def exBaseSigner : MsgSigner := ⟨fun _ _ _ => .ok exSigned1⟩

/-- A base signer whose wallet fails with error 9. -/
def exBrokenSigner : MsgSigner := ⟨fun _ _ _ => .error (.external 9)⟩

/-- A signer on a follower replica whose state already holds key 42. -/
def exFollower : MessageSignerConsensus := ⟨exBaseSigner, exFollowerEngine⟩

/-- A signer on the leader, whose state already holds key 42. -/
def exLeader : MessageSignerConsensus := ⟨exBaseSigner, exLeaderEngine⟩

/-- A replica whose engine serves the given applied state. -/
def replicaAt (st : RaftState) : MessageSignerConsensus :=
  exLeader.withState (.ok (.raftState st))

/-- A signer on a leader whose commits fail. -/
def exLeaderNoQuorum : MessageSignerConsensus := ⟨exBaseSigner, exFailingEngine⟩

/-- A signer on a leader whose wallet fails. -/
def exLeaderNoWallet : MessageSignerConsensus := ⟨exBrokenSigner, exFollowerEngine⟩

/-! ## The Cassandra write batch -/

/-- A datastore key (`datastore.Key`), as its bytes. -/
abbrev Key := List Nat

/-- A statement queued on a `gocql.Batch`. Keys are bound in their `toCasKey` form, a base64
re-encoding of the key bytes that plays no part in batching and is left out. -/
inductive Statement where
  | update (value : List Nat) (key : Key)
  | delete (key : Key)
  deriving DecidableEq, Repr

/-- The session's `ExecuteBatch`, as the outcome (`none` for success) of the attempt with the
given number, counted from zero, on the given group of statements. -/
structure Session where
  ExecuteBatch : List Statement → Nat → Option Error

/-- The struct `cassandraBatch`: the statements of the current group (`c.batch`) and the
groups `Put` has handed to a background goroutine (the ones counted by `c.wg`). -/
structure cassandraBatch where
  batch : List Statement
  launched : List (List Statement)
  deriving DecidableEq, Repr

/-- The batch as `CassandraDatastore.Batch` creates it: an empty current group, nothing
launched. -/
def cassandraBatch.new : cassandraBatch := ⟨[], []⟩

/-- The method `Put`: queues the update; when the current group then holds 64 statements or
more it is handed to a goroutine for execution and replaced by a fresh empty group. Always
returns nil. -/
def cassandraBatch.Put (c : cassandraBatch) (key : Key) (value : List Nat) : cassandraBatch :=
  let batch := c.batch ++ [.update value key]
  if batch.length ≥ 64 then
    { batch := [], launched := c.launched ++ [batch] }
  else
    { c with batch := batch }

/-- The method `Delete`: queues the delete statement and returns nil. -/
def cassandraBatch.Delete (c : cassandraBatch) (key : Key) : cassandraBatch :=
  { c with batch := c.batch ++ [.delete key] }

/-- The retry loop of `Commit`, `for i := 0; i < 30; i++`, with `remaining = 30 - i`
iterations left and `err` the error of the previous attempt. Returns the final `err` and
the number of executions made so far. -/
def commitLoop (exec : Nat → Option Error) : Nat → Nat → Option Error → Option Error × Nat
  | 0, i, err => (err, i)
  | remaining + 1, i, _ =>
    match exec i with
    | none => (none, i + 1)
    | some e => commitLoop exec remaining (i + 1) (some e)

/-- The method `Commit`, after `c.wg.Wait()`: returns nil at once for an empty current group,
otherwise runs the retry loop on it. The result is the returned error and the number of
times the current group was executed. -/
def cassandraBatch.Commit (c : cassandraBatch) (session : Session) : Option Error × Nat :=
  if c.batch.length = 0 then
    (none, 0)
  else
    commitLoop (session.ExecuteBatch c.batch) 30 0 none

/-- A call on a batch. -/
inductive BatchOp where
  | put (key : Key) (value : List Nat)
  | delete (key : Key)
  deriving DecidableEq, Repr

/-- Applies one call to a batch. -/
def cassandraBatch.step (c : cassandraBatch) : BatchOp → cassandraBatch
  | .put key value => c.Put key value
  | .delete key => c.Delete key

/-- Applies a sequence of calls, first to last. -/
def cassandraBatch.run (c : cassandraBatch) (ops : List BatchOp) : cassandraBatch :=
  ops.foldl cassandraBatch.step c

/-- The errors of the goroutines started by `Put`: each executes its group once and, on an
error, only logs it with `log.Warnf`. These are the warnings logged by the time `c.wg.Wait()`
in `Commit` returns; nothing else keeps them. -/
def cassandraBatch.flushWarnings (c : cassandraBatch) (session : Session) : List Error :=
  c.launched.filterMap (fun group => session.ExecuteBatch group 0)

/-- A session on which the first three attempts time out (error 3) and later ones succeed. -/
def exFlakySession : Session := ⟨fun _ i => if i < 3 then some (.external 3) else none⟩

/-- A session on which attempt `i` fails with error `i`, for every `i`. -/
def exDeadSession : Session := ⟨fun _ i => some (.external i)⟩

/-! ## Shared lemmas -/

theorem GoMap.get_set_self {κ ν : Type} [DecidableEq κ] (m : GoMap κ ν) (k : κ) (v : ν) :
    (m.set k v).get k = some v := by
  simp [GoMap.set, GoMap.get]

theorem SignMessage_of_base_error (ms : MessageSignerConsensus) (msg : Message)
    (spec : Option MessageSendSpec) (cb : SignedMessage → Option Error) (e : Error)
    (h : ms.MsgSigner.SignMessage msg spec cb = .error e) :
    ms.SignMessage msg spec cb = ⟨[.baseSign msg spec], .returned (none, some e)⟩ := by
  simp [MessageSignerConsensus.SignMessage, h]

theorem SignMessage_of_nil_spec (ms : MessageSignerConsensus) (msg : Message)
    (cb : SignedMessage → Option Error) (s : SignedMessage)
    (h : ms.MsgSigner.SignMessage msg none cb = .ok s) :
    ms.SignMessage msg none cb = ⟨[.baseSign msg none], .panicked⟩ := by
  simp [MessageSignerConsensus.SignMessage, h]

theorem SignMessage_of_commit_error (ms : MessageSignerConsensus) (msg : Message)
    (sp : MessageSendSpec) (cb : SignedMessage → Option Error) (s : SignedMessage) (e : Error)
    (h : ms.MsgSigner.SignMessage msg (some sp) cb = .ok s)
    (hc : ms.consensus.Commit ⟨s.Message.Nonce, sp.MsgUuid, s.Message.From, s⟩ = some e) :
    ms.SignMessage msg (some sp) cb =
      ⟨[.baseSign msg (some sp), .commit ⟨s.Message.Nonce, sp.MsgUuid, s.Message.From, s⟩],
        .returned (none, some e)⟩ := by
  simp [MessageSignerConsensus.SignMessage, h, hc]

theorem SignMessage_of_commit_ok (ms : MessageSignerConsensus) (msg : Message)
    (sp : MessageSendSpec) (cb : SignedMessage → Option Error) (s : SignedMessage)
    (h : ms.MsgSigner.SignMessage msg (some sp) cb = .ok s)
    (hc : ms.consensus.Commit ⟨s.Message.Nonce, sp.MsgUuid, s.Message.From, s⟩ = none) :
    ms.SignMessage msg (some sp) cb =
      ⟨[.baseSign msg (some sp), .commit ⟨s.Message.Nonce, sp.MsgUuid, s.Message.From, s⟩],
        .returned (some s, none)⟩ := by
  simp [MessageSignerConsensus.SignMessage, h, hc]

/-- Whatever the inputs, `SignMessage` starts with exactly one base-signer call and makes no
leadership, redirect or state call. -/
theorem SignMessage_calls_shape (ms : MessageSignerConsensus) (msg : Message)
    (spec : Option MessageSendSpec) (cb : SignedMessage → Option Error) :
    (ms.SignMessage msg spec cb).calls = [.baseSign msg spec] ∨
      ∃ op, (ms.SignMessage msg spec cb).calls = [.baseSign msg spec, .commit op] := by
  unfold MessageSignerConsensus.SignMessage
  cases ms.MsgSigner.SignMessage msg spec cb with
  | error e => exact Or.inl rfl
  | ok s =>
    cases spec with
    | none => exact Or.inl rfl
    | some sp =>
      refine Or.inr ⟨⟨s.Message.Nonce, sp.MsgUuid, s.Message.From, s⟩, ?_⟩
      cases hc : ms.consensus.Commit ⟨s.Message.Nonce, sp.MsgUuid, s.Message.From, s⟩ <;>
        simp [hc]

/-- Whatever the engine answers, `GetSignedMessage` makes exactly one call: the state read. -/
theorem GetSignedMessage_calls (ms : MessageSignerConsensus) (k : UUID) :
    (ms.GetSignedMessage k).calls = [.state] := by
  unfold MessageSignerConsensus.GetSignedMessage
  split
  · rfl
  · rfl
  · split <;> rfl

/-- Reading the key of an applied operation: the earlier entry when there was one, the
operation's message otherwise. -/
theorem RaftState.get_Apply_key (st : RaftState) (op : ConsensusOp) :
    (st.Apply op).MsgUuids.get op.IdempotencyKey =
      match st.MsgUuids.get op.IdempotencyKey with
      | some old => some old
      | none => some op.SignedMessage := by
  unfold RaftState.Apply
  cases h : st.MsgUuids.get op.IdempotencyKey with
  | some old => simp [h]
  | none => simp [GoMap.get_set_self]

theorem GetSignedMessage_of_present (ms : MessageSignerConsensus) (k : UUID) (st : RaftState)
    (s : SignedMessage) (hst : ms.consensus.State = .ok (.raftState st))
    (hk : st.MsgUuids.get k = some s) :
    ms.GetSignedMessage k = ⟨[.state], .returned (some s, none)⟩ := by
  simp [MessageSignerConsensus.GetSignedMessage, hst, hk]

theorem GetSignedMessage_of_absent (ms : MessageSignerConsensus) (k : UUID) (st : RaftState)
    (hst : ms.consensus.State = .ok (.raftState st)) (hk : st.MsgUuids.get k = none) :
    ms.GetSignedMessage k = ⟨[.state], .returned (none, some (.msgNotAvailable k))⟩ := by
  simp [MessageSignerConsensus.GetSignedMessage, hst, hk]

theorem GetSignedMessage_of_state_error (ms : MessageSignerConsensus) (k : UUID) (e : Error)
    (hst : ms.consensus.State = .error e) :
    ms.GetSignedMessage k = ⟨[.state], .returned (none, some e)⟩ := by
  simp [MessageSignerConsensus.GetSignedMessage, hst]

/-! ## The signer: claims -/

/-- C1, as stated, fails: on a replica whose engine reports "not leader", `SignMessage`
invokes the base signer once, submits an operation to `Commit` and redirects nothing. -/
theorem follower_signs_and_commits :
    exFollower.consensus.IsLeader = false ∧
    exFollower.SignMessage exMsg (some exSpec) exCb =
      ⟨[.baseSign exMsg (some exSpec), .commit ⟨1, 42, 7, exSigned1⟩],
        .returned (some exSigned1, none)⟩ ∧
    baseSignCount (exFollower.SignMessage exMsg (some exSpec) exCb).calls = 1 ∧
    commitCount (exFollower.SignMessage exMsg (some exSpec) exCb).calls = 1 ∧
    redirectCount (exFollower.SignMessage exMsg (some exSpec) exCb).calls = 0 := by
  decide

/-- C1, amended: `SignMessage` does not look at leadership. On every replica it invokes the
base signer exactly once, never asks the engine for leadership, never redirects, and its
calls and result are the same whatever the engine reports as leader. Forwarding is the
separate method `RedirectToLeader`, which never invokes the base signer and never submits
an operation to `Commit`. -/
theorem signMessage_ignores_leadership (ms : MessageSignerConsensus) (msg : Message)
    (spec : Option MessageSendSpec) (cb : SignedMessage → Option Error) (b : Bool)
    (method : String) (arg ret : Iface) :
    baseSignCount (ms.SignMessage msg spec cb).calls = 1 ∧
    redirectCount (ms.SignMessage msg spec cb).calls = 0 ∧
    Call.isLeader ∉ (ms.SignMessage msg spec cb).calls ∧
    (ms.withLeader b).SignMessage msg spec cb = ms.SignMessage msg spec cb ∧
    baseSignCount (ms.RedirectToLeader method arg ret).calls = 0 ∧
    commitCount (ms.RedirectToLeader method arg ret).calls = 0 := by
  refine ⟨?_, ?_, ?_, rfl, ?_, ?_⟩
  · rcases SignMessage_calls_shape ms msg spec cb with h | ⟨op, h⟩ <;>
      simp [h, baseSignCount]
  · rcases SignMessage_calls_shape ms msg spec cb with h | ⟨op, h⟩ <;>
      simp [h, redirectCount]
  · rcases SignMessage_calls_shape ms msg spec cb with h | ⟨op, h⟩ <;>
      simp [h]
  · unfold MessageSignerConsensus.RedirectToLeader
    cases ret with
    | other t => rfl
    | signedMessagePtr p =>
      cases h : (ms.consensus.RedirectToLeader method arg p).err <;>
        simp [h, baseSignCount]
  · unfold MessageSignerConsensus.RedirectToLeader
    cases ret with
    | other t => rfl
    | signedMessagePtr p =>
      cases h : (ms.consensus.RedirectToLeader method arg p).err <;>
        simp [h, commitCount]

/-- C2, as stated, fails: key 42 already has the entry `exSigned0` in the replicated state,
yet `SignMessage` with key 42 invokes the base signer, submits a second operation and
returns the newly signed `exSigned1`. -/
theorem retry_signs_and_commits_again :
    (exLeader.GetSignedMessage 42).out = .returned (some exSigned0, none) ∧
    (exLeader.SignMessage exMsg (some exSpec) exCb).out = .returned (some exSigned1, none) ∧
    exSigned1 ≠ exSigned0 ∧
    baseSignCount (exLeader.SignMessage exMsg (some exSpec) exCb).calls = 1 ∧
    committedOps (exLeader.SignMessage exMsg (some exSpec) exCb).calls =
      [⟨1, 42, 7, exSigned1⟩] := by
  decide

/-- C2, amended: `SignMessage` has no short-circuit on the idempotency key. It never reads
the replicated state; whether or not the key already has an entry it invokes the base signer
exactly once and, when that succeeds with a present spec, submits exactly one new operation
to `Commit`, built from the newly signed message; its calls and result are the same for
every replicated state. The entry stored under a key is served by `GetSignedMessage`, which
invokes neither the base signer nor `Commit`. -/
theorem signMessage_ignores_replicated_state (ms : MessageSignerConsensus) (msg : Message)
    (spec : Option MessageSendSpec) (cb : SignedMessage → Option Error)
    (st : Except Error EngineState) (k : UUID) :
    Call.state ∉ (ms.SignMessage msg spec cb).calls ∧
    baseSignCount (ms.SignMessage msg spec cb).calls = 1 ∧
    (ms.withState st).SignMessage msg spec cb = ms.SignMessage msg spec cb ∧
    baseSignCount (ms.GetSignedMessage k).calls = 0 ∧
    commitCount (ms.GetSignedMessage k).calls = 0 ∧
    (∀ sp s, spec = some sp → ms.MsgSigner.SignMessage msg spec cb = .ok s →
      commitCount (ms.SignMessage msg spec cb).calls = 1 ∧
      committedOps (ms.SignMessage msg spec cb).calls = [signingOp s sp] ∧
      committedOps ((ms.withState st).SignMessage msg spec cb).calls = [signingOp s sp]) := by
  refine ⟨?_, ?_, rfl, ?_, ?_, ?_⟩
  · rcases SignMessage_calls_shape ms msg spec cb with h | ⟨op, h⟩ <;>
      simp [h]
  · rcases SignMessage_calls_shape ms msg spec cb with h | ⟨op, h⟩ <;>
      simp [h, baseSignCount]
  · simp [GetSignedMessage_calls, baseSignCount]
  · simp [GetSignedMessage_calls, commitCount]
  · intro sp s hsp hb
    subst hsp
    have hsame : (ms.withState st).SignMessage msg (some sp) cb =
        ms.SignMessage msg (some sp) cb := rfl
    rw [hsame]
    cases hc : ms.consensus.Commit ⟨s.Message.Nonce, sp.MsgUuid, s.Message.From, s⟩ with
    | none =>
      simp [SignMessage_of_commit_ok ms msg sp cb s hb hc, commitCount, committedOps,
        signingOp]
    | some e =>
      simp [SignMessage_of_commit_error ms msg sp cb s e hb hc, commitCount, committedOps,
        signingOp]

/-- C2 at the leader, whose state already binds key 42 to `exSigned0`: a call with key 42
still submits one new operation, for the newly signed `exSigned1`. -/
theorem signMessage_ignores_replicated_state_witness :
    (exLeader.GetSignedMessage 42).out = .returned (some exSigned0, none) ∧
    commitCount (exLeader.SignMessage exMsg (some exSpec) exCb).calls = 1 ∧
    committedOps (exLeader.SignMessage exMsg (some exSpec) exCb).calls =
      [signingOp exSigned1 exSpec] ∧
    committedOps ((exLeader.withState (.ok (.raftState RaftState.empty))).SignMessage exMsg
      (some exSpec) exCb).calls = [signingOp exSigned1 exSpec] :=
  ⟨by decide,
    (signMessage_ignores_replicated_state exLeader exMsg (some exSpec) exCb
      (.ok (.raftState RaftState.empty)) 42).2.2.2.2.2 exSpec exSigned1 rfl rfl⟩

/-- C3, as stated, fails at a nil spec: the base signer succeeds, the call panics on
`spec.MsgUuid`, and `Commit` is attempted zero times rather than once. -/
theorem nil_spec_never_commits :
    exLeader.MsgSigner.SignMessage exMsg none exCb = .ok exSigned1 ∧
    exLeader.SignMessage exMsg none exCb = ⟨[.baseSign exMsg none], .panicked⟩ ∧
    commitCount (exLeader.SignMessage exMsg none exCb).calls = 0 :=
  ⟨rfl, by decide, by decide⟩

/-- C3, amended to calls with a present spec: when the base signer succeeds, `Commit` is
attempted exactly once, on the operation built from the signed message; `SignMessage`
returns a signed message if and only if that `Commit` returned no error; and when `Commit`
fails, `SignMessage` returns exactly its error and no signed message. -/
theorem signMessage_commit_before_response (ms : MessageSignerConsensus) (msg : Message)
    (sp : MessageSendSpec) (cb : SignedMessage → Option Error) (s : SignedMessage)
    (h : ms.MsgSigner.SignMessage msg (some sp) cb = .ok s) :
    commitCount (ms.SignMessage msg (some sp) cb).calls = 1 ∧
    committedOps (ms.SignMessage msg (some sp) cb).calls = [signingOp s sp] ∧
    ((∃ s1 e1, (ms.SignMessage msg (some sp) cb).out = .returned (some s1, e1)) ↔
      ms.consensus.Commit (signingOp s sp) = none) ∧
    (∀ e, ms.consensus.Commit (signingOp s sp) = some e →
      (ms.SignMessage msg (some sp) cb).out = .returned (none, some e)) := by
  cases hc : ms.consensus.Commit (signingOp s sp) with
  | none =>
    have hr := SignMessage_of_commit_ok ms msg sp cb s h hc
    simp [hr, commitCount, committedOps, signingOp]
  | some e =>
    have hr := SignMessage_of_commit_error ms msg sp cb s e h hc
    simp [hr, commitCount, committedOps, signingOp]

/-- C3 at a leader whose commits fail with error 5: one `Commit` attempt, the error comes
back, no signed message. -/
theorem signMessage_commit_before_response_witness :
    commitCount (exLeaderNoQuorum.SignMessage exMsg (some exSpec) exCb).calls = 1 ∧
    committedOps (exLeaderNoQuorum.SignMessage exMsg (some exSpec) exCb).calls =
      [signingOp exSigned1 exSpec] ∧
    ((∃ s1 e1, (exLeaderNoQuorum.SignMessage exMsg (some exSpec) exCb).out =
        .returned (some s1, e1)) ↔
      exLeaderNoQuorum.consensus.Commit (signingOp exSigned1 exSpec) = none) ∧
    (∀ e, exLeaderNoQuorum.consensus.Commit (signingOp exSigned1 exSpec) = some e →
      (exLeaderNoQuorum.SignMessage exMsg (some exSpec) exCb).out =
        .returned (none, some e)) :=
  signMessage_commit_before_response exLeaderNoQuorum exMsg exSpec exCb exSigned1 rfl

/-- C4: with a present spec and a base signer that returns `s`, the one operation submitted
to `Commit` has Nonce `s.Message.Nonce`, IdempotencyKey `spec.MsgUuid`, From
`s.Message.From` and SignedMessage `s`; any signed message `SignMessage` returns is `s`, and
it does return `s` when `Commit` succeeds. -/
theorem signMessage_operation_fields (ms : MessageSignerConsensus) (msg : Message)
    (sp : MessageSendSpec) (cb : SignedMessage → Option Error) (s : SignedMessage)
    (h : ms.MsgSigner.SignMessage msg (some sp) cb = .ok s) :
    ∃ op, committedOps (ms.SignMessage msg (some sp) cb).calls = [op] ∧
      op.Nonce = s.Message.Nonce ∧ op.IdempotencyKey = sp.MsgUuid ∧
      op.From = s.Message.From ∧ op.SignedMessage = s ∧
      (∀ s1 e1, (ms.SignMessage msg (some sp) cb).out = .returned (some s1, e1) → s1 = s) ∧
      (ms.consensus.Commit op = none →
        (ms.SignMessage msg (some sp) cb).out = .returned (some s, none)) := by
  refine ⟨⟨s.Message.Nonce, sp.MsgUuid, s.Message.From, s⟩, ?_, rfl, rfl, rfl, rfl, ?_, ?_⟩
  · cases hc : ms.consensus.Commit ⟨s.Message.Nonce, sp.MsgUuid, s.Message.From, s⟩ with
    | none => simp [SignMessage_of_commit_ok ms msg sp cb s h hc, committedOps]
    | some e => simp [SignMessage_of_commit_error ms msg sp cb s e h hc, committedOps]
  · intro s1 e1
    cases hc : ms.consensus.Commit ⟨s.Message.Nonce, sp.MsgUuid, s.Message.From, s⟩ with
    | none =>
      simp only [SignMessage_of_commit_ok ms msg sp cb s h hc]
      intro heq
      injection heq with heq
      injection heq with h1 _
      injection h1 with h1
      exact h1.symm
    | some e =>
      simp only [SignMessage_of_commit_error ms msg sp cb s e h hc]
      intro heq
      injection heq with heq
      injection heq with h1 _
      cases h1
  · intro hc
    simp [SignMessage_of_commit_ok ms msg sp cb s h hc]

/-- C4 at the leader: the operation carries nonce 1, key 42, sender 7 and `exSigned1`, and
`exSigned1` is what comes back. -/
theorem signMessage_operation_fields_witness :
    ∃ op, committedOps (exLeader.SignMessage exMsg (some exSpec) exCb).calls = [op] ∧
      op.Nonce = exSigned1.Message.Nonce ∧ op.IdempotencyKey = exSpec.MsgUuid ∧
      op.From = exSigned1.Message.From ∧ op.SignedMessage = exSigned1 ∧
      (∀ s1 e1, (exLeader.SignMessage exMsg (some exSpec) exCb).out =
        .returned (some s1, e1) → s1 = exSigned1) ∧
      (exLeader.consensus.Commit op = none →
        (exLeader.SignMessage exMsg (some exSpec) exCb).out =
          .returned (some exSigned1, none)) :=
  signMessage_operation_fields exLeader exMsg exSpec exCb exSigned1 rfl

/-- C5: `GetSignedMessage(k)` makes one call, the state read, and no `Commit`. When the read
yields a replicated state, it returns the message stored under `k` in `MsgUuids` if there is
one, and the not-found error with no message exactly when `k` is absent; when the read fails
it returns the engine's error. -/
theorem getSignedMessage_lookup (ms : MessageSignerConsensus) (k : UUID) :
    (ms.GetSignedMessage k).calls = [.state] ∧
    commitCount (ms.GetSignedMessage k).calls = 0 ∧
    (∀ st, ms.consensus.State = .ok (.raftState st) →
      (∀ s, st.MsgUuids.get k = some s →
        (ms.GetSignedMessage k).out = .returned (some s, none)) ∧
      (st.MsgUuids.get k = none ↔
        (ms.GetSignedMessage k).out = .returned (none, some (.msgNotAvailable k))) ∧
      (st.MsgUuids.get k = none ↔
        ∃ e, (ms.GetSignedMessage k).out = .returned (none, some e))) ∧
    (∀ e, ms.consensus.State = .error e →
      (ms.GetSignedMessage k).out = .returned (none, some e)) := by
  refine ⟨GetSignedMessage_calls ms k, by simp [GetSignedMessage_calls, commitCount], ?_, ?_⟩
  · intro st hst
    refine ⟨?_, ?_, ?_⟩
    · intro s hk
      simp [GetSignedMessage_of_present ms k st s hst hk]
    · cases hk : st.MsgUuids.get k with
      | none => simp [GetSignedMessage_of_absent ms k st hst hk]
      | some s => simp [GetSignedMessage_of_present ms k st s hst hk]
    · cases hk : st.MsgUuids.get k with
      | none => simp [GetSignedMessage_of_absent ms k st hst hk]
      | some s => simp [GetSignedMessage_of_present ms k st s hst hk]
  · intro e hst
    simp [GetSignedMessage_of_state_error ms k e hst]

/-- C5 at the leader, whose state binds key 42 to `exSigned0`: the lookup returns it. -/
theorem getSignedMessage_lookup_witness :
    exLeader.consensus.State = .ok (.raftState exState) ∧
    exState.MsgUuids.get 42 = some exSigned0 ∧
    (exLeader.GetSignedMessage 42).out = .returned (some exSigned0, none) :=
  ⟨rfl, by decide,
    ((getSignedMessage_lookup exLeader 42).2.2.1 exState rfl).1 exSigned0 (by decide)⟩

/-- C6, as stated, fails: key 42 is already bound to `exSigned0`; `SignMessage` with key 42
returns `exSigned1` after a successful `Commit`, yet on a replica that has applied the
committed operation `GetSignedMessage(42)` returns `exSigned0`. -/
theorem applied_retry_keeps_first_message :
    (exLeader.SignMessage exMsg (some exSpec) exCb).out = .returned (some exSigned1, none) ∧
    committedOps (exLeader.SignMessage exMsg (some exSpec) exCb).calls =
      [signingOp exSigned1 exSpec] ∧
    ((replicaAt (exState.Apply (signingOp exSigned1 exSpec))).GetSignedMessage 42).out =
      .returned (some exSigned0, none) ∧
    exSigned0 ≠ exSigned1 := by
  decide

/-- C6, amended: when `SignMessage` with key `k` returns `s`, exactly one operation was
committed, and on every replica whose state is the result of applying that operation to a
state in which `k` had no entry, or already mapped to `s`, `GetSignedMessage(k)` returns
`s`. -/
theorem read_after_commit (ms : MessageSignerConsensus) (msg : Message)
    (sp : MessageSendSpec) (cb : SignedMessage → Option Error) (s : SignedMessage)
    (e1 : Option Error)
    (h : (ms.SignMessage msg (some sp) cb).out = .returned (some s, e1)) :
    ∃ op, committedOps (ms.SignMessage msg (some sp) cb).calls = [op] ∧
      ms.consensus.Commit op = none ∧
      ∀ (replica : MessageSignerConsensus) (st : RaftState),
        (st.MsgUuids.get sp.MsgUuid = none ∨ st.MsgUuids.get sp.MsgUuid = some s) →
        replica.consensus.State = .ok (.raftState (st.Apply op)) →
        (replica.GetSignedMessage sp.MsgUuid).out = .returned (some s, none) := by
  cases hb : ms.MsgSigner.SignMessage msg (some sp) cb with
  | error e =>
    rw [SignMessage_of_base_error ms msg (some sp) cb e hb] at h
    simp at h
  | ok s0 =>
    cases hc : ms.consensus.Commit ⟨s0.Message.Nonce, sp.MsgUuid, s0.Message.From, s0⟩ with
    | some e =>
      rw [SignMessage_of_commit_error ms msg sp cb s0 e hb hc] at h
      simp at h
    | none =>
      have hr := SignMessage_of_commit_ok ms msg sp cb s0 hb hc
      rw [hr] at h
      have hs : s0 = s := by
        injection h with h
        injection h with h1 _
        injection h1
      subst hs
      refine ⟨⟨s0.Message.Nonce, sp.MsgUuid, s0.Message.From, s0⟩, ?_, hc, ?_⟩
      · simp [hr, committedOps]
      · intro replica st hk hst
        have hget := RaftState.get_Apply_key st
          ⟨s0.Message.Nonce, sp.MsgUuid, s0.Message.From, s0⟩
        have hfin : (st.Apply ⟨s0.Message.Nonce, sp.MsgUuid, s0.Message.From, s0⟩).MsgUuids.get
            sp.MsgUuid = some s0 := by
          rcases hk with hk | hk
          · simpa [hk] using hget
          · simpa [hk] using hget
        simp [GetSignedMessage_of_present replica sp.MsgUuid _ s0 hst hfin]

/-- C6 on an engine that accepts commits: a first `SignMessage` with key 42 returns
`exSigned1`, and a replica that applies the operation to the empty state serves it. -/
theorem read_after_commit_witness :
    (exLeader.SignMessage exMsg (some exSpec) exCb).out = .returned (some exSigned1, none) ∧
    ∃ op, committedOps (exLeader.SignMessage exMsg (some exSpec) exCb).calls = [op] ∧
      exLeader.consensus.Commit op = none ∧
      ∀ (replica : MessageSignerConsensus) (st : RaftState),
        (st.MsgUuids.get exSpec.MsgUuid = none ∨
          st.MsgUuids.get exSpec.MsgUuid = some exSigned1) →
        replica.consensus.State = .ok (.raftState (st.Apply op)) →
        (replica.GetSignedMessage exSpec.MsgUuid).out = .returned (some exSigned1, none) :=
  ⟨by decide, read_after_commit exLeader exMsg exSpec exCb exSigned1 none (by decide)⟩

/-- C7: when the base signer fails with `e`, `SignMessage` returns `e` and no signed message,
having called the base signer exactly once and `Commit` not at all. -/
theorem signMessage_base_failure (ms : MessageSignerConsensus) (msg : Message)
    (spec : Option MessageSendSpec) (cb : SignedMessage → Option Error) (e : Error)
    (h : ms.MsgSigner.SignMessage msg spec cb = .error e) :
    (ms.SignMessage msg spec cb).out = .returned (none, some e) ∧
    (ms.SignMessage msg spec cb).calls = [.baseSign msg spec] ∧
    baseSignCount (ms.SignMessage msg spec cb).calls = 1 ∧
    commitCount (ms.SignMessage msg spec cb).calls = 0 := by
  simp [SignMessage_of_base_error ms msg spec cb e h, baseSignCount, commitCount]

/-- C7 at a leader whose wallet fails with error 9. -/
theorem signMessage_base_failure_witness :
    (exLeaderNoWallet.SignMessage exMsg (some exSpec) exCb).out =
      .returned (none, some (.external 9)) ∧
    (exLeaderNoWallet.SignMessage exMsg (some exSpec) exCb).calls =
      [.baseSign exMsg (some exSpec)] ∧
    baseSignCount (exLeaderNoWallet.SignMessage exMsg (some exSpec) exCb).calls = 1 ∧
    commitCount (exLeaderNoWallet.SignMessage exMsg (some exSpec) exCb).calls = 0 :=
  signMessage_base_failure exLeaderNoWallet exMsg (some exSpec) exCb (.external 9) rfl

/-- C8, as stated, fails for a `resultOut` that is not a `*types.SignedMessage`: the type
assertion panics and the engine's redirect is never invoked. -/
theorem redirect_panics_on_foreign_result :
    exFollower.RedirectToLeader exMethod (.other 0) (.other 1) = ⟨[], .panicked⟩ ∧
    redirectCount (exFollower.RedirectToLeader exMethod (.other 0) (.other 1)).calls = 0 := by
  decide

/-- C8, amended: for every method name and argument, and every `resultOut` that is a
`*types.SignedMessage`, `RedirectToLeader` invokes the engine's redirect once with that
method name and argument, leaves in `resultOut` what the engine decoded, and returns the
engine's handled flag and error unchanged; for any other `resultOut` it panics before
invoking the engine. -/
theorem redirectToLeader_passthrough (ms : MessageSignerConsensus) (method : String)
    (arg : Iface) (pointee : SignedMessage) (tag : Nat) :
    ms.RedirectToLeader method arg (.signedMessagePtr pointee) =
      ⟨[.redirect method arg],
        .returned ((ms.consensus.RedirectToLeader method arg pointee).handled,
          (ms.consensus.RedirectToLeader method arg pointee).err,
          (ms.consensus.RedirectToLeader method arg pointee).decoded)⟩ ∧
    ms.RedirectToLeader method arg (.other tag) = ⟨[], .panicked⟩ := by
  refine ⟨?_, rfl⟩
  unfold MessageSignerConsensus.RedirectToLeader
  cases h : (ms.consensus.RedirectToLeader method arg pointee).err <;> simp [h]

/-! ## The write batch: lemmas -/

/-- After any `Put` the current group holds at most 63 statements. -/
theorem cassandraBatch.Put_pending_le (c : cassandraBatch) (key : Key) (value : List Nat) :
    (c.Put key value).batch.length ≤ 63 := by
  simp only [cassandraBatch.Put]
  by_cases h : (c.batch ++ [Statement.update value key]).length ≥ 64
  · rw [if_pos h]
    simp
  · rw [if_neg h]
    show (c.batch ++ [Statement.update value key]).length ≤ 63
    omega

/-- A `Delete` adds one statement to the current group, whatever its size. -/
theorem cassandraBatch.Delete_pending (c : cassandraBatch) (key : Key) :
    (c.Delete key).batch.length = c.batch.length + 1 := by
  simp [cassandraBatch.Delete]

/-- The retry loop, entered at attempt `i` with `r + 1` iterations left: it makes at least
one and at most `r + 1` executions, returns the outcome of the last one, every execution
before the last one failed, and a failure is returned only after all `r + 1` executions. -/
theorem commitLoop_spec (exec : Nat → Option Error) (r : Nat) :
    ∀ (i : Nat) (err : Option Error),
      i < (commitLoop exec (r + 1) i err).2 ∧
      (commitLoop exec (r + 1) i err).2 ≤ i + r + 1 ∧
      (commitLoop exec (r + 1) i err).1 = exec ((commitLoop exec (r + 1) i err).2 - 1) ∧
      (∀ j, i ≤ j → j + 1 < (commitLoop exec (r + 1) i err).2 → exec j ≠ none) ∧
      ((commitLoop exec (r + 1) i err).1 ≠ none →
        (commitLoop exec (r + 1) i err).2 = i + r + 1) := by
  induction r with
  | zero =>
    intro i err
    cases h : exec i with
    | none =>
      simp only [commitLoop, h]
      refine ⟨by omega, by omega, by simp [h], ?_, by simp⟩
      intro j h1 h2
      omega
    | some e =>
      simp only [commitLoop, h]
      refine ⟨by omega, by omega, by simp [h], ?_, by simp⟩
      intro j h1 h2
      omega
  | succ r ih =>
    intro i err
    cases h : exec i with
    | none =>
      rw [commitLoop]
      simp only [h]
      refine ⟨by omega, by omega, by simp [h], ?_, by simp⟩
      intro j h1 h2
      omega
    | some e =>
      rw [commitLoop]
      simp only [h]
      obtain ⟨a1, a2, a3, a4, a5⟩ := ih (i + 1) (some e)
      refine ⟨by omega, by omega, a3, ?_, ?_⟩
      · intro j h1 h2
        rcases Nat.eq_or_lt_of_le h1 with heq | hlt
        · subst heq
          simp [h]
        · exact a4 j hlt h2
      · intro hne
        have := a5 hne
        omega

/-- Deletes alone never hand the current group over: `n` of them add `n` statements. -/
theorem cassandraBatch.run_deletes (key : Key) (n : Nat) :
    ∀ c : cassandraBatch,
      (c.run (List.replicate n (.delete key))).batch.length = c.batch.length + n := by
  induction n with
  | zero => intro c; simp [cassandraBatch.run]
  | succ n ih =>
    intro c
    have h := ih (c.Delete key)
    simp only [cassandraBatch.run] at h
    simp only [cassandraBatch.run, List.replicate_succ, List.foldl_cons, cassandraBatch.step]
    rw [h, cassandraBatch.Delete_pending]
    omega

/-! ## The write batch: claims -/

/-- C9 fails on the code: 65 `Delete` calls on a batch that starts empty leave 65 statements
pending in the current group, above the limit of 64 that `Put` enforces; nothing was handed
over for execution. -/
theorem deletes_exceed_batch_limit :
    (cassandraBatch.new.run (List.replicate 65 (.delete [1]))).batch.length = 65 ∧
    64 < (cassandraBatch.new.run (List.replicate 65 (.delete [1]))).batch.length := by
  have h := cassandraBatch.run_deletes [1] 65 cassandraBatch.new
  simp only [cassandraBatch.new, List.length_nil, Nat.zero_add] at h
  simp only [cassandraBatch.new]
  omega

/-- C10: `Commit` on an empty current group executes nothing and returns no error. On a
non-empty one it executes the group at least once and at most 30 times; every execution
before the last one failed, so it stops at the first success; it returns no error if and only
if one of the executions it made succeeded; and when it returns an error it has made all 30
executions and the error is that of the 30th. -/
theorem commit_bounded_retry (c : cassandraBatch) (session : Session) :
    (c.batch.length = 0 → c.Commit session = (none, 0)) ∧
    (c.batch.length ≠ 0 →
      1 ≤ (c.Commit session).2 ∧ (c.Commit session).2 ≤ 30 ∧
      (∀ j, j + 1 < (c.Commit session).2 → session.ExecuteBatch c.batch j ≠ none) ∧
      ((c.Commit session).1 = none ↔
        ∃ j, j < (c.Commit session).2 ∧ session.ExecuteBatch c.batch j = none) ∧
      ((c.Commit session).1 ≠ none →
        (c.Commit session).2 = 30 ∧
        (c.Commit session).1 = session.ExecuteBatch c.batch 29)) := by
  constructor
  · intro h
    simp [cassandraBatch.Commit, h]
  · intro h
    have hc : c.Commit session = commitLoop (session.ExecuteBatch c.batch) 30 0 none := by
      simp [cassandraBatch.Commit, h]
    have hs := commitLoop_spec (session.ExecuteBatch c.batch) 29 0 none
    simp only [Nat.reduceAdd, Nat.zero_add] at hs
    obtain ⟨a1, a2, a3, a4, a5⟩ := hs
    rw [hc]
    refine ⟨by omega, by omega, fun j hj => a4 j (Nat.zero_le j) hj, ?_, ?_⟩
    · constructor
      · intro hnone
        refine ⟨(commitLoop (session.ExecuteBatch c.batch) 30 0 none).2 - 1, by omega, ?_⟩
        rw [← a3]
        exact hnone
      · rintro ⟨j, hj, hex⟩
        by_cases hlast : j + 1 < (commitLoop (session.ExecuteBatch c.batch) 30 0 none).2
        · exact absurd hex (a4 j (Nat.zero_le j) hlast)
        · have hj1 : (commitLoop (session.ExecuteBatch c.batch) 30 0 none).2 - 1 = j := by
            omega
          rw [a3, hj1]
          exact hex
    · intro hne
      have hn := a5 hne
      refine ⟨by omega, ?_⟩
      rw [a3]
      have h29 : (commitLoop (session.ExecuteBatch c.batch) 30 0 none).2 - 1 = 29 := by omega
      rw [h29]

/-- C10 on a one-statement batch whose first three executions time out: four executions,
no error. -/
theorem commit_bounded_retry_witness :
    (cassandraBatch.new.Delete [1]).batch.length ≠ 0 ∧
    (cassandraBatch.new.Delete [1]).Commit exFlakySession = (none, 4) ∧
    (1 ≤ ((cassandraBatch.new.Delete [1]).Commit exFlakySession).2 ∧
      ((cassandraBatch.new.Delete [1]).Commit exFlakySession).2 ≤ 30 ∧
      (∀ j, j + 1 < ((cassandraBatch.new.Delete [1]).Commit exFlakySession).2 →
        exFlakySession.ExecuteBatch (cassandraBatch.new.Delete [1]).batch j ≠ none) ∧
      (((cassandraBatch.new.Delete [1]).Commit exFlakySession).1 = none ↔
        ∃ j, j < ((cassandraBatch.new.Delete [1]).Commit exFlakySession).2 ∧
          exFlakySession.ExecuteBatch (cassandraBatch.new.Delete [1]).batch j = none) ∧
      (((cassandraBatch.new.Delete [1]).Commit exFlakySession).1 ≠ none →
        ((cassandraBatch.new.Delete [1]).Commit exFlakySession).2 = 30 ∧
        ((cassandraBatch.new.Delete [1]).Commit exFlakySession).1 =
          exFlakySession.ExecuteBatch (cassandraBatch.new.Delete [1]).batch 29)) :=
  ⟨by decide, by decide,
    (commit_bounded_retry (cassandraBatch.new.Delete [1]) exFlakySession).2 (by decide)⟩

/-- Fewer than 64 `Put` calls in a row on a short enough group only extend it. -/
theorem cassandraBatch.run_puts_below (key : Key) (value : List Nat) (n : Nat) :
    ∀ c : cassandraBatch, c.batch.length + n < 64 →
      c.run (List.replicate n (.put key value)) =
        ⟨c.batch ++ List.replicate n (.update value key), c.launched⟩ := by
  induction n with
  | zero => intro c _; simp [cassandraBatch.run]
  | succ n ih =>
    intro c hlen
    have hput : c.Put key value = ⟨c.batch ++ [.update value key], c.launched⟩ := by
      simp only [cassandraBatch.Put]
      rw [if_neg]
      simp only [List.length_append, List.length_singleton]
      omega
    have hlen2 : (c.Put key value).batch.length + n < 64 := by
      rw [hput]
      simp only [List.length_append, List.length_singleton]
      omega
    have h := ih (c.Put key value) hlen2
    change (c.Put key value).run (List.replicate n (.put key value)) = _
    rw [h, hput]
    simp [List.replicate_succ]

/-- Exactly 64 `Put` calls on a fresh batch: the 64th hands the whole group over. -/
theorem cassandraBatch.run_puts_flush (key : Key) (value : List Nat) :
    cassandraBatch.new.run (List.replicate 64 (.put key value)) =
      ⟨[], [List.replicate 64 (.update value key)]⟩ := by
  have hsplit : List.replicate 64 (BatchOp.put key value) =
      List.replicate 63 (BatchOp.put key value) ++ [BatchOp.put key value] :=
    List.replicate_succ' 63 _
  have hu : List.replicate 63 (Statement.update value key) ++ [Statement.update value key] =
      List.replicate 64 (Statement.update value key) :=
    (List.replicate_succ' 63 _).symm
  have h63 := cassandraBatch.run_puts_below key value 63 cassandraBatch.new (by decide)
  have hrun : cassandraBatch.new.run (List.replicate 64 (.put key value)) =
      (cassandraBatch.new.run (List.replicate 63 (.put key value))).Put key value := by
    simp only [cassandraBatch.run, hsplit, List.foldl_append, List.foldl_cons, List.foldl_nil,
      cassandraBatch.step]
  rw [hrun, h63]
  simp only [cassandraBatch.Put, cassandraBatch.new, List.nil_append, hu,
    List.length_replicate]
  rfl

/-- C11 fails on the code: after 64 `Put` calls the group of 64 statements has been handed to
a goroutine; on a session where every execution fails that group fails (one warning is
logged), nothing is left pending, and `Commit` executes nothing and returns no error. -/
theorem flushed_group_failure_is_dropped :
    (cassandraBatch.new.run (List.replicate 64 (.put [1] [2]))).launched.length = 1 ∧
    (cassandraBatch.new.run (List.replicate 64 (.put [1] [2]))).batch = [] ∧
    (cassandraBatch.new.run (List.replicate 64 (.put [1] [2]))).flushWarnings exDeadSession =
      [.external 0] ∧
    (cassandraBatch.new.run (List.replicate 64 (.put [1] [2]))).Commit exDeadSession =
      (none, 0) := by
  have h := cassandraBatch.run_puts_flush [1] [2]
  rw [h]
  exact ⟨rfl, rfl, rfl, rfl⟩

/-! ## The signer: the nil spec -/

/-- C12: when the spec is nil and the base signer succeeds, `SignMessage` panics on
`spec.MsgUuid` after its one base-signer call: it returns nothing and submits no operation
to `Commit`. In general, whenever `SignMessage` submits an operation to `Commit`, the spec
was present. -/
theorem signMessage_nil_spec_faults (ms : MessageSignerConsensus) (msg : Message)
    (cb : SignedMessage → Option Error) (s : SignedMessage)
    (h : ms.MsgSigner.SignMessage msg none cb = .ok s) :
    (ms.SignMessage msg none cb).out = .panicked ∧
    (∀ r, (ms.SignMessage msg none cb).out ≠ .returned r) ∧
    (ms.SignMessage msg none cb).calls = [.baseSign msg none] ∧
    commitCount (ms.SignMessage msg none cb).calls = 0 ∧
    committedOps (ms.SignMessage msg none cb).calls = [] ∧
    (∀ spec, committedOps (ms.SignMessage msg spec cb).calls ≠ [] → spec ≠ none) := by
  have hr := SignMessage_of_nil_spec ms msg cb s h
  refine ⟨by simp [hr], by simp [hr], by simp [hr], by simp [hr, commitCount],
    by simp [hr, committedOps], ?_⟩
  intro spec hne hspec
  subst hspec
  apply hne
  simp [hr, committedOps]

/-- C12 at the leader: the base signer returns `exSigned1`, the call panics, nothing is
committed. -/
theorem signMessage_nil_spec_faults_witness :
    (exLeader.SignMessage exMsg none exCb).out = .panicked ∧
    (∀ r, (exLeader.SignMessage exMsg none exCb).out ≠ .returned r) ∧
    (exLeader.SignMessage exMsg none exCb).calls = [.baseSign exMsg none] ∧
    commitCount (exLeader.SignMessage exMsg none exCb).calls = 0 ∧
    committedOps (exLeader.SignMessage exMsg none exCb).calls = [] ∧
    (∀ spec, committedOps (exLeader.SignMessage exMsg spec exCb).calls ≠ [] →
      spec ≠ none) :=
  signMessage_nil_spec_faults exLeader exMsg exCb exSigned1 rfl

end Lotus
